import Mathlib

/-
Verification of the client-side behaviour implemented in `public/script.js`
of the Portfolio repository.  The JavaScript modules (`state`, `utils`,
`navigation`, `animations`, `forms`, `theme`) are shallowly embedded as Lean
definitions below; machine state touched by each handler (DOM classes, inline
styles, the `theme` storage key, the `animatedElements` set) is made explicit
as record fields, and each handler becomes a pure state transformer.
-/

set_option autoImplicit false

/-- Model of a JavaScript number as produced by the arithmetic in
`updateScrollProgress`: either a finite value (modelled exactly as a
rational), one of the two infinities, or NaN.  Only finite operands occur in
the embedded program, so `jsDiv` models division precisely on finite inputs
(including the division-by-zero cases, which JavaScript maps to ±Infinity and
NaN) and is NaN elsewhere. -/
inductive JSNum where
  | num (val : ℚ)
  | posInf
  | negInf
  | nan
  deriving Repr, DecidableEq

/-- JavaScript division for the operands reachable in this program: finite by
finite, with `x / 0` giving Infinity, -Infinity or NaN according to the sign
of `x`. -/
def jsDiv : JSNum → JSNum → JSNum
  | .num x, .num y =>
    if y = 0 then (if x = 0 then .nan else if 0 < x then .posInf else .negInf)
    else .num (x / y)
  | _, _ => .nan

/-- JavaScript multiplication by the literal `100`, as used in
`updateScrollProgress` (`... * 100`). -/
def jsMul100 : JSNum → JSNum
  | .num x => .num (x * 100)
  | .posInf => .posInf
  | .negInf => .negInf
  | .nan => .nan

namespace utils

/-- Model of the closure returned by `utils.throttle(func, limit)`
(script.js lines 23-34): it captures the wrapped function together with the
millisecond window `limit` passed at wrapping time.  The wall-clock
rate-limiting schedule itself is timing behaviour outside this embedding; the
claims below concern which function is wrapped and with which limit. -/
structure Throttled (α : Type) where
  func : α
  limit : Nat

/-- Embedding of `utils.throttle` (script.js line 23). -/
def throttle {α : Type} (func : α) (limit : Nat) : Throttled α :=
  { func := func, limit := limit }

end utils

namespace navigation

/-- The state read and written by the mobile-menu handlers: the `isMenuOpen`
flag of `state`, the `hidden` class on the menu panel, the `fa-bars` /
`fa-times` classes on the button icon, and `document.body.style.overflow`. -/
structure MenuState where
  isMenuOpen : Bool
  menuHidden : Bool
  iconHasBars : Bool
  iconHasTimes : Bool
  bodyOverflow : String
  deriving Repr, DecidableEq

/-- Embedding of `navigation.toggleMobileMenu` (script.js lines 71-82):
flips the open flag, toggles the `hidden` class and both icon classes, and
overwrites `document.body.style.overflow` with `'hidden'` or `''` according
to the new flag. -/
def toggleMobileMenu (s : MenuState) : MenuState :=
  let nowOpen := !s.isMenuOpen
  { isMenuOpen := nowOpen
    menuHidden := !s.menuHidden
    iconHasBars := !s.iconHasBars
    iconHasTimes := !s.iconHasTimes
    bodyOverflow := if nowOpen then "hidden" else "" }

/-- Embedding of `navigation.closeMobileMenu` (script.js lines 85-96): when
the menu is open it clears the flag, adds `hidden`, adds `fa-bars`, removes
`fa-times` and resets the body overflow; otherwise the guard fails and
nothing is touched. -/
def closeMobileMenu (s : MenuState) : MenuState :=
  if s.isMenuOpen then
    { isMenuOpen := false
      menuHidden := true
      iconHasBars := true
      iconHasTimes := false
      bodyOverflow := "" }
  else s

end navigation

namespace animations

/-- An element carrying the `animate-fade-in` marker class, identified by its
object identity (`id`) and its current `getBoundingClientRect().top` at the
moment of a scroll tick. -/
structure AnimElement where
  id : Nat
  top : ℚ
  deriving Repr, DecidableEq

/-- A style mutation performed by `animateOnScroll` on one element:
`element.style.opacity = '1'; element.style.transform = 'translateY(0)'`. -/
structure StyleWrite where
  targetId : Nat
  opacity : String
  transform : String
  deriving Repr, DecidableEq

/-- Embedding of the `elements.forEach` loop of `animations.animateOnScroll`
(script.js lines 130-141).  The set `state.animatedElements` is modelled as a
list of element identities; membership tests performed later in the same loop
see the additions made earlier, exactly as with the live JavaScript `Set`.
The returned second component records the style writes performed by the loop,
in order. -/
def animateLoop (screenPosition : ℚ) :
    List AnimElement → List Nat → List Nat × List StyleWrite
  | [], animated => (animated, [])
  | el :: els, animated =>
    if el.id ∈ animated then
      animateLoop screenPosition els animated
    else if el.top < screenPosition then
      let r := animateLoop screenPosition els (el.id :: animated)
      (r.1, { targetId := el.id, opacity := "1", transform := "translateY(0)" } :: r.2)
    else
      animateLoop screenPosition els animated

/-- Embedding of the body of `animations.animateOnScroll` (script.js lines
127-142): `screenPosition = window.innerHeight * 0.8`, then the element
scan. -/
def animateOnScrollBody (innerHeight : ℚ) (elements : List AnimElement)
    (animatedElements : List Nat) : List Nat × List StyleWrite :=
  animateLoop (innerHeight * 0.8) elements animatedElements

/-- Embedding of `animations.animateOnScroll` itself: the scan wrapped by
`utils.throttle(..., 50)` (script.js line 142). -/
def animateOnScroll :
    utils.Throttled (ℚ → List AnimElement → List Nat → List Nat × List StyleWrite) :=
  utils.throttle animateOnScrollBody 50

/-- One scroll tick: the viewport height and the elements found by
`document.querySelectorAll('.animate-fade-in')`, each with its current
bounding-rect top. -/
structure ScrollTick where
  innerHeight : ℚ
  elements : List AnimElement
  deriving Repr, DecidableEq

/-- A sequence of scroll ticks run against the page-global
`state.animatedElements`; returns the final set together with every style
write performed across the ticks, in order. -/
def runTicks : List ScrollTick → List Nat → List Nat × List StyleWrite
  | [], animated => (animated, [])
  | t :: ts, animated =>
    let r := animateOnScrollBody t.innerHeight t.elements animated
    let rest := runTicks ts r.1
    (rest.1, r.2 ++ rest.2)

/-- The element identities targeted by a list of style writes. -/
def writeIds (ws : List StyleWrite) : List Nat :=
  ws.map StyleWrite.targetId

/-- The readings of `window.scrollY`, `document.documentElement.scrollHeight`
and `window.innerHeight` at one scroll-progress tick. -/
structure ScrollEnv where
  scrollY : ℚ
  scrollHeight : ℚ
  innerHeight : ℚ
  deriving Repr, DecidableEq

/-- The progress bar created by `initScrollProgress`; `width` holds the last
value written to `progressBar.style.width` (a percentage), or `none` if no
write has happened yet. -/
structure ProgressBar where
  width : Option JSNum
  deriving Repr, DecidableEq

/-- Embedding of the body of `animations.updateScrollProgress` (script.js
lines 154-159): `scrollTop / (scrollHeight - innerHeight) * 100`, written
unconditionally to the bar's width. -/
def updateScrollProgressBody (env : ScrollEnv) (bar : ProgressBar) : ProgressBar :=
  let scrollTop := env.scrollY
  let documentHeight := env.scrollHeight - env.innerHeight
  let scrollPercentage := jsMul100 (jsDiv (.num scrollTop) (.num documentHeight))
  { bar with width := some scrollPercentage }

/-- Embedding of `animations.updateScrollProgress` itself: the body wrapped
by `utils.throttle(..., 10)` (script.js line 159). -/
def updateScrollProgress :
    utils.Throttled (ScrollEnv → ProgressBar → ProgressBar) :=
  utils.throttle updateScrollProgressBody 10

end animations

namespace forms

/-- The characters matched by JavaScript's `\s` class (used through
`String.prototype.trim` and the email regex). -/
def jsWhitespace (c : Char) : Bool :=
  c == ' ' || c == '\t' || c == '\n' || c == '\r' ||
  c.toNat == 0x0B || c.toNat == 0x0C || c.toNat == 0xA0 ||
  c.toNat == 0x1680 || (0x2000 ≤ c.toNat && c.toNat ≤ 0x200A) ||
  c.toNat == 0x2028 || c.toNat == 0x2029 || c.toNat == 0x202F ||
  c.toNat == 0x205F || c.toNat == 0x3000 || c.toNat == 0xFEFF

/-- Falsiness of `s.trim()` as used in the validation guards
(`!name.trim()` and the like): the string trims to the empty string exactly
when every character is whitespace. -/
def isBlank (s : String) : Bool :=
  s.toList.all jsWhitespace

/-- A character admitted by the `[^\s@]` classes of the email regex. -/
def okChar (c : Char) : Bool :=
  !(jsWhitespace c) && !(c == '@')

/-- Splits a character list at its first `'@'`, returning the (necessarily
`'@'`-free) part before it and the part after it, or `none` when the list has
no `'@'`.  This drives the anchored match of
`/^[^\s@]+@[^\s@]+\.[^\s@]+$/`: since `[^\s@]+` cannot contain `'@'`, the
`'@'` of any match is the first `'@'` of the subject. -/
def splitAtFirstAt : List Char → Option (List Char × List Char)
  | [] => none
  | c :: cs =>
    if c == '@' then some ([], cs)
    else
      match splitAtFirstAt cs with
      | none => none
      | some (l, r) => some (c :: l, r)

/-- Embedding of `forms.isValidEmail` (script.js lines 228-231):
`/^[^\s@]+@[^\s@]+\.[^\s@]+$/.test(email)`.  The subject must be
`local@domain` with `local` nonempty and `[^\s@]`-only, `domain`
`[^\s@]`-only, and `domain` must contain a `'.'` that has at least one
character on each side (the `[^\s@]+` groups around `\.`). -/
def isValidEmail (email : String) : Bool :=
  match splitAtFirstAt email.toList with
  | none => false
  | some (localPart, domain) =>
    !localPart.isEmpty && localPart.all okChar &&
    domain.all okChar && ((domain.drop 1).dropLast).contains '.'

/-- The email regex `^[^\s@]+@[^\s@]+\.[^\s@]+$` transcribed from the
specification's words: some decomposition `l @ d1 . d2` with all three
groups nonempty and free of whitespace and `'@'`. -/
def matchesEmailRegex (s : String) : Prop :=
  ∃ l d1 d2 : List Char,
    s.toList = l ++ '@' :: (d1 ++ '.' :: d2) ∧
    l ≠ [] ∧ d1 ≠ [] ∧ d2 ≠ [] ∧
    l.all okChar = true ∧ d1.all okChar = true ∧ d2.all okChar = true

/-- The four fields read out of the contact form's `FormData`. -/
structure ContactFormData where
  name : String
  email : String
  subject : String
  message : String
  deriving Repr, DecidableEq

/-- Result of `forms.validateContactForm`: either every check passed, or the
single error message displayed via `showMessage(_, 'error')` for the first
failing check. -/
inductive ValidationResult where
  | ok
  | error (message : String)
  deriving Repr, DecidableEq

/-- Embedding of `forms.validateContactForm` (script.js lines 201-225): the
four guards in source order, each returning `false` after displaying exactly
one message; the displayed message is carried in the `error` constructor. -/
def validateContactForm (d : ContactFormData) : ValidationResult :=
  if isBlank d.name then .error "Please enter your name."
  else if isBlank d.email || !(isValidEmail d.email) then
    .error "Please enter a valid email address."
  else if isBlank d.subject then .error "Please enter a subject."
  else if isBlank d.message then .error "Please enter a message."
  else .ok

/-- The externally visible outcome of one `forms.handleContactForm` run: the
`(text, type)` pairs passed to `showMessage`, in order, and whether
`forms.submitContactForm` was invoked. -/
structure SubmitOutcome where
  shownMessages : List (String × String)
  submitInvoked : Bool
  deriving Repr, DecidableEq

/-- Embedding of `forms.handleContactForm` (script.js lines 165-198): when
validation fails the handler returns before touching the submit path (the
one error message was shown by `validateContactForm`); otherwise the
simulated submission runs (it always resolves) and the success message is
shown. -/
def handleContactForm (d : ContactFormData) : SubmitOutcome :=
  match validateContactForm d with
  | .error m => { shownMessages := [(m, "error")], submitInvoked := false }
  | .ok =>
    { shownMessages :=
        [("Thank you for your message! I\x27ll get back to you soon.", "success")]
      submitInvoked := true }

/-- A DOM element as far as `showMessage` observes it: its class list and its
text content. -/
structure DomNode where
  classes : List String
  textContent : String
  deriving Repr, DecidableEq

/-- Whether a node is matched by `document.querySelector('.form-message')`. -/
def isFormMessage (n : DomNode) : Bool :=
  n.classes.contains "form-message"

/-- Removal of the first `.form-message` node from a node list
(`existingMessage.remove()`); the identity when no node matches. -/
def removeFirstFormMessage : List DomNode → List DomNode
  | [] => []
  | n :: ns => if isFormMessage n then ns else n :: removeFirstFormMessage ns

/-- The part of the document `showMessage` can touch: the elements preceding
the contact form in document order, and the children of the form itself. -/
structure FormDocument where
  beforeForm : List DomNode
  formChildren : List DomNode
  deriving Repr, DecidableEq

/-- Embedding of the removal step of `forms.showMessage` (script.js lines
246-249): `document.querySelector('.form-message')` finds the first matching
node in document order (nodes before the form precede the form's children),
and that node, if any, is removed. -/
def removeExistingMessage (doc : FormDocument) : FormDocument :=
  if doc.beforeForm.any isFormMessage then
    { doc with beforeForm := removeFirstFormMessage doc.beforeForm }
  else
    { doc with formChildren := removeFirstFormMessage doc.formChildren }

/-- The class tokens assigned to the message element,
`form-message p-4 rounded-lg mb-4` followed by the type-dependent colour
classes (script.js lines 253-257). -/
def messageClasses (msgType : String) : List String :=
  ["form-message", "p-4", "rounded-lg", "mb-4"] ++
  (if msgType = "success" then
    ["bg-green-100", "text-green-800", "border", "border-green-200"]
  else if msgType = "error" then
    ["bg-red-100", "text-red-800", "border", "border-red-200"]
  else
    ["bg-blue-100", "text-blue-800", "border", "border-blue-200"])

/-- The message element built by `showMessage` (script.js lines 252-258). -/
def mkMessageDiv (message msgType : String) : DomNode :=
  { classes := messageClasses msgType, textContent := message }

/-- Embedding of `forms.showMessage` (script.js lines 244-267): remove the
first existing `.form-message` node, build the new message element, insert it
via `contactForm.insertBefore(messageDiv, contactForm.firstChild)` — i.e. as
the new first child of the form — and schedule `messageDiv.remove()` after
5000 ms.  Returns the updated document, the inserted node, and the scheduled
delay in milliseconds. -/
def showMessage (message msgType : String) (doc : FormDocument) :
    FormDocument × DomNode × Nat :=
  let cleaned := removeExistingMessage doc
  let messageDiv := mkMessageDiv message msgType
  ({ cleaned with formChildren := messageDiv :: cleaned.formChildren },
   messageDiv, 5000)

/-- Number of `.form-message` nodes present in the document. -/
def countFormMessages (doc : FormDocument) : Nat :=
  doc.beforeForm.countP isFormMessage + doc.formChildren.countP isFormMessage

end forms

namespace theme

/-- The state read and written by the theme controller: the root element's
`className` and the value stored under the `theme` key of `localStorage`
(`none` when the key is absent). -/
structure ThemeState where
  rootClassName : String
  storedTheme : Option String
  deriving Repr, DecidableEq

/-- Embedding of `theme.setTheme` (script.js lines 328-331): writes the theme
name both as the root element's class name and under the storage key. -/
def setTheme (s : ThemeState) (themeName : String) : ThemeState :=
  { rootClassName := themeName, storedTheme := some themeName }

/-- The value of `localStorage.getItem('theme') || 'light'`: the stored
string unless the key is absent or holds the empty (falsy) string. -/
def getSavedTheme (s : ThemeState) : String :=
  match s.storedTheme with
  | none => "light"
  | some t => if t = "" then "light" else t

/-- Embedding of `theme.init` (script.js lines 321-325). -/
def init (s : ThemeState) : ThemeState :=
  setTheme s (getSavedTheme s)

/-- Embedding of `theme.toggle` (script.js lines 334-338): reads the current
root class, maps `'dark'` to `'light'` and anything else to `'dark'`, and
applies the result through `setTheme`. -/
def toggle (s : ThemeState) : ThemeState :=
  let currentTheme := s.rootClassName
  let newTheme := if currentTheme = "dark" then "light" else "dark"
  setTheme s newTheme

/-- The persisted preference and the applied root class agree. -/
def storageAgrees (s : ThemeState) : Prop :=
  s.storedTheme = some s.rootClassName

end theme

/-- C1: the claim as frozen says toggling from a root class outside
`{light, dark}` persists and applies `"light"`; on the code, toggling from
`"blue"` persists and applies `"dark"`, and `"dark" ≠ "light"`. -/
theorem toggle_unknown_theme_not_light :
    theme.toggle { rootClassName := "blue", storedTheme := some "blue" } =
      { rootClassName := "dark", storedTheme := some "dark" } ∧
    ("dark" : String) ≠ "light" := by
  constructor
  · rfl
  · decide

/-- C1 (amended): for every current root-element class value outside
`{"light", "dark"}`, the toggle operation treats it as non-dark and coerces
the preference to `"dark"`, persisting `"dark"` to the storage key and
applying it as the root element's class. -/
theorem toggle_unknown_theme_coerces_dark (s : theme.ThemeState)
    (h1 : s.rootClassName ≠ "light") (h2 : s.rootClassName ≠ "dark") :
    (theme.toggle s).rootClassName = "dark" ∧
    (theme.toggle s).storedTheme = some "dark" := by
  simp [theme.toggle, theme.setTheme, h2]

/-- C1 witness: the amended theorem applied at the concrete class value
`"blue"`. -/
theorem toggle_unknown_theme_coerces_dark_witness :
    (("blue" : String) ≠ "light" ∧ ("blue" : String) ≠ "dark") ∧
    (theme.toggle { rootClassName := "blue", storedTheme := some "blue" }).rootClassName = "dark" ∧
    (theme.toggle { rootClassName := "blue", storedTheme := some "blue" }).storedTheme = some "dark" :=
  ⟨⟨by decide, by decide⟩,
   toggle_unknown_theme_coerces_dark
     { rootClassName := "blue", storedTheme := some "blue" } (by decide) (by decide)⟩

/-- C10: after any theme operation (`setTheme`, `init`, `toggle`), the value
persisted under the `theme` storage key equals the root element's class
name. -/
theorem theme_storage_class_agree (s : theme.ThemeState) (themeName : String) :
    theme.storageAgrees (theme.setTheme s themeName) ∧
    theme.storageAgrees (theme.init s) ∧
    theme.storageAgrees (theme.toggle s) :=
  ⟨rfl, rfl, rfl⟩

/-- C4: the claim as frozen says the fade-in scan is throttled with a 10 ms
window; the throttle limit actually passed when wrapping the scan is not
10. -/
theorem animateOnScroll_throttle_limit_not_ten :
    animations.animateOnScroll.limit ≠ 10 := by decide

/-- C4 (amended): the fade-in scan handler is wrapped in a throttle whose
limit argument equals 50 milliseconds. -/
theorem animateOnScroll_throttle_limit_fifty :
    animations.animateOnScroll.limit = 50 := rfl

/-- C9: calling the menu-close operation when the menu is already closed is
a no-op: the whole UI state (menu class, icon classes, body overflow, flag)
is left unchanged. -/
theorem closeMobileMenu_noop_when_closed (s : navigation.MenuState)
    (h : s.isMenuOpen = false) :
    navigation.closeMobileMenu s = s := by
  simp [navigation.closeMobileMenu, h]

/-- C9 witness: the no-op theorem applied at a concrete closed state with
unusual class and style values, all left untouched. -/
theorem closeMobileMenu_noop_when_closed_witness :
    (({ isMenuOpen := false, menuHidden := false, iconHasBars := false,
        iconHasTimes := true, bodyOverflow := "x" } : navigation.MenuState).isMenuOpen = false) ∧
    navigation.closeMobileMenu
      { isMenuOpen := false, menuHidden := false, iconHasBars := false,
        iconHasTimes := true, bodyOverflow := "x" } =
      { isMenuOpen := false, menuHidden := false, iconHasBars := false,
        iconHasTimes := true, bodyOverflow := "x" } :=
  ⟨rfl, closeMobileMenu_noop_when_closed _ rfl⟩

/-- C7: the claim as frozen says toggling the menu twice restores the body
overflow style for any initial overflow value; starting closed with overflow
`"scroll"`, two toggles leave overflow `""`, not `"scroll"`. -/
theorem toggle_twice_overflow_not_restored :
    (navigation.toggleMobileMenu (navigation.toggleMobileMenu
      { isMenuOpen := false, menuHidden := true, iconHasBars := true,
        iconHasTimes := false, bodyOverflow := "scroll" })).bodyOverflow = "" ∧
    ("" : String) ≠ "scroll" := by
  constructor
  · rfl
  · decide

/-- C7 (amended): for every starting state whose body overflow holds the
canonical value the toggle itself writes (`"hidden"` when open, `""` when
closed), toggling the menu twice returns the entire state — open flag,
menu `hidden` class, both icon classes and body overflow — to its original
value. -/
theorem toggle_twice_restores_state (s : navigation.MenuState)
    (h : s.bodyOverflow = if s.isMenuOpen then "hidden" else "") :
    navigation.toggleMobileMenu (navigation.toggleMobileMenu s) = s := by
  cases s with
  | mk o mh ib it bo => cases o <;> simp_all [navigation.toggleMobileMenu]

/-- C7 witness: the amended theorem applied at a concrete closed state with
overflow `""`. -/
theorem toggle_twice_restores_state_witness :
    (({ isMenuOpen := false, menuHidden := true, iconHasBars := true,
        iconHasTimes := false, bodyOverflow := "" } : navigation.MenuState).bodyOverflow =
      if ({ isMenuOpen := false, menuHidden := true, iconHasBars := true,
            iconHasTimes := false, bodyOverflow := "" } : navigation.MenuState).isMenuOpen
      then "hidden" else "") ∧
    navigation.toggleMobileMenu (navigation.toggleMobileMenu
      { isMenuOpen := false, menuHidden := true, iconHasBars := true,
        iconHasTimes := false, bodyOverflow := "" }) =
      { isMenuOpen := false, menuHidden := true, iconHasBars := true,
        iconHasTimes := false, bodyOverflow := "" } :=
  ⟨by decide, toggle_twice_restores_state _ (by decide)⟩

/-- C3: the scroll-progress update always writes
`scrollTop / (scrollHeight - innerHeight) * 100` as the bar's width, with no
guard on the denominator: when the document's scroll height is at most the
viewport height the divisor is zero or negative and the write still
happens. -/
theorem updateScrollProgress_unguarded_division (env : animations.ScrollEnv)
    (bar : animations.ProgressBar) :
    (animations.updateScrollProgressBody env bar).width =
      some (jsMul100 (jsDiv (.num env.scrollY) (.num (env.scrollHeight - env.innerHeight)))) ∧
    (env.scrollHeight ≤ env.innerHeight → env.scrollHeight - env.innerHeight ≤ 0) := by
  refine ⟨rfl, fun h => by linarith⟩

/-- C3 witness: the theorem applied at a concrete document shorter than the
viewport (scroll height 100, viewport 200, scroll offset 5); the divisor is
negative and the written percentage evaluates to `-5`. -/
theorem updateScrollProgress_unguarded_division_witness :
    ((100 : ℚ) ≤ 200) ∧
    (animations.updateScrollProgressBody
      { scrollY := 5, scrollHeight := 100, innerHeight := 200 }
      { width := none }).width = some (JSNum.num (-5)) ∧
    ((100 : ℚ) - 200 ≤ 0) := by
  refine ⟨by norm_num, ?_, ?_⟩
  · rw [(updateScrollProgress_unguarded_division
      { scrollY := 5, scrollHeight := 100, innerHeight := 200 } { width := none }).1]
    norm_num [jsDiv, jsMul100]
  · exact (updateScrollProgress_unguarded_division
      { scrollY := 5, scrollHeight := 100, innerHeight := 200 } { width := none }).2
      (by norm_num)

/-- C2: validation checks the four fields in the fixed source order — name,
then email (non-blank and regex-valid), then subject, then message — stops at
the first failing check with exactly that check's message, and whenever
validation fails the handler shows exactly that one message and never invokes
`submitContactForm`. -/
theorem validateContactForm_order_first_failure (d : forms.ContactFormData) :
    (forms.isBlank d.name = true →
      forms.validateContactForm d = .error "Please enter your name.") ∧
    (forms.isBlank d.name = false →
      (forms.isBlank d.email || !(forms.isValidEmail d.email)) = true →
      forms.validateContactForm d = .error "Please enter a valid email address.") ∧
    (forms.isBlank d.name = false →
      (forms.isBlank d.email || !(forms.isValidEmail d.email)) = false →
      forms.isBlank d.subject = true →
      forms.validateContactForm d = .error "Please enter a subject.") ∧
    (forms.isBlank d.name = false →
      (forms.isBlank d.email || !(forms.isValidEmail d.email)) = false →
      forms.isBlank d.subject = false →
      forms.isBlank d.message = true →
      forms.validateContactForm d = .error "Please enter a message.") ∧
    (∀ m, forms.validateContactForm d = .error m →
      forms.handleContactForm d =
        { shownMessages := [(m, "error")], submitInvoked := false }) := by
  refine ⟨fun h1 => ?_, fun h1 h2 => ?_, fun h1 h2 h3 => ?_,
    fun h1 h2 h3 h4 => ?_, fun m hm => ?_⟩
  · simp [forms.validateContactForm, h1]
  · simp [forms.validateContactForm, h1, h2]
  · simp [forms.validateContactForm, h1, h2, h3]
  · simp [forms.validateContactForm, h1, h2, h3, h4]
  · simp [forms.handleContactForm, hm]

/-- C2 witness: the theorem applied at a record with a blank name and the
other three fields valid: exactly the name message is shown and
`submitContactForm` is not invoked. -/
theorem validateContactForm_order_first_failure_witness :
    forms.isBlank "" = true ∧
    forms.validateContactForm
      { name := "", email := "a@b.co", subject := "hi", message := "hello" } =
      .error "Please enter your name." ∧
    forms.handleContactForm
      { name := "", email := "a@b.co", subject := "hi", message := "hello" } =
      { shownMessages := [("Please enter your name.", "error")], submitInvoked := false } :=
  ⟨rfl,
   (validateContactForm_order_first_failure _).1 rfl,
   (validateContactForm_order_first_failure _).2.2.2.2 _
     ((validateContactForm_order_first_failure _).1 rfl)⟩

/-- Removing the first `.form-message` node decrements the `.form-message`
count exactly when such a node is present. -/
theorem countP_removeFirstFormMessage (l : List forms.DomNode) :
    (forms.removeFirstFormMessage l).countP forms.isFormMessage =
      l.countP forms.isFormMessage - (if l.any forms.isFormMessage then 1 else 0) := by
  induction l with
  | nil => rfl
  | cons n ns ih =>
    by_cases h : forms.isFormMessage n = true
    · simp [forms.removeFirstFormMessage, h, List.countP_cons]
    · simp [forms.removeFirstFormMessage, h, List.countP_cons, ih]

/-- A node list in which no node matches `.form-message` has a zero
`.form-message` count. -/
theorem countP_eq_zero_of_not_any (l : List forms.DomNode)
    (h : l.any forms.isFormMessage = false) :
    l.countP forms.isFormMessage = 0 := by
  induction l with
  | nil => rfl
  | cons n ns ih => simp_all [List.countP_cons]

/-- The element built by `showMessage` carries the `form-message` class. -/
theorem isFormMessage_mkMessageDiv (message msgType : String) :
    forms.isFormMessage (forms.mkMessageDiv message msgType) = true := by
  simp [forms.isFormMessage, forms.mkMessageDiv, forms.messageClasses]

/-- C5: the claim as frozen says the new message node is inserted before the
form, as a sibling preceding the form element; on the code, calling
`showMessage` on a document with no sibling before the form and an empty form
leaves the sibling list empty and puts the new node inside the form as its
first child. -/
theorem showMessage_inserts_inside_form_not_before :
    ((forms.showMessage "hello" "info" { beforeForm := [], formChildren := [] }).1).beforeForm
      = [] ∧
    ((forms.showMessage "hello" "info" { beforeForm := [], formChildren := [] }).1).formChildren
      = [forms.mkMessageDiv "hello" "info"] := by
  constructor
  · rfl
  · rfl

/-- C5 (amended): for every call to `showMessage`, the first prior message
node (if any) is removed, the new styled message node is inserted as the
first child of the form element (not as a sibling preceding the form), and
the new node is scheduled for removal after 5 seconds (5000 ms).  The count
equation makes the removal observable: one matching node is removed exactly
when one was present, and the inserted node is the single new match. -/
theorem showMessage_removes_prior_inserts_first_child_timer
    (message msgType : String) (doc : forms.FormDocument) :
    ((forms.showMessage message msgType doc).1).formChildren.head? =
      some (forms.mkMessageDiv message msgType) ∧
    ((forms.showMessage message msgType doc).1).beforeForm =
      (forms.removeExistingMessage doc).beforeForm ∧
    (forms.showMessage message msgType doc).2.1 = forms.mkMessageDiv message msgType ∧
    (forms.showMessage message msgType doc).2.2 = 5000 ∧
    forms.countFormMessages (forms.showMessage message msgType doc).1 =
      (forms.countFormMessages doc - 1) + 1 := by
  refine ⟨rfl, rfl, rfl, rfl, ?_⟩
  by_cases hb : doc.beforeForm.any forms.isFormMessage = true
  · have hpos : 0 < doc.beforeForm.countP forms.isFormMessage :=
      List.countP_pos_iff.mpr (List.any_eq_true.mp hb)
    simp [forms.showMessage, forms.countFormMessages, forms.removeExistingMessage, hb,
      List.countP_cons, isFormMessage_mkMessageDiv, countP_removeFirstFormMessage]
    omega
  · have hb0 : doc.beforeForm.any forms.isFormMessage = false := by
      simpa using hb
    have h0 : doc.beforeForm.countP forms.isFormMessage = 0 :=
      countP_eq_zero_of_not_any _ hb0
    by_cases hf : doc.formChildren.any forms.isFormMessage = true
    · have hfpos : 0 < doc.formChildren.countP forms.isFormMessage :=
        List.countP_pos_iff.mpr (List.any_eq_true.mp hf)
      simp [forms.showMessage, forms.countFormMessages, forms.removeExistingMessage, hb0, hf,
        List.countP_cons, isFormMessage_mkMessageDiv, countP_removeFirstFormMessage, h0]
    · have hf0 : doc.formChildren.any forms.isFormMessage = false := by
        simpa using hf
      have hc0 : doc.formChildren.countP forms.isFormMessage = 0 :=
        countP_eq_zero_of_not_any _ hf0
      simp [forms.showMessage, forms.countFormMessages, forms.removeExistingMessage, hb0, hf0,
        List.countP_cons, isFormMessage_mkMessageDiv, countP_removeFirstFormMessage, h0, hc0]

/-- Characterisation of `splitAtFirstAt`: a successful split is exactly a
decomposition of the subject at its first `'@'`. -/
theorem splitAtFirstAt_eq_some_iff (cs l r : List Char) :
    forms.splitAtFirstAt cs = some (l, r) ↔ cs = l ++ '@' :: r ∧ '@' ∉ l := by
  induction cs generalizing l r with
  | nil =>
    simp only [forms.splitAtFirstAt]
    constructor
    · intro h; cases h
    · rintro ⟨h, -⟩
      exact absurd h (by simp)
  | cons c cs ih =>
    by_cases hc : c = '@'
    · subst hc
      simp only [forms.splitAtFirstAt, beq_self_eq_true, if_true]
      constructor
      · intro h
        rw [Option.some.injEq, Prod.mk.injEq] at h
        obtain ⟨rfl, rfl⟩ := h
        exact ⟨rfl, by simp⟩
      · rintro ⟨heq, hnot⟩
        cases l with
        | nil =>
          simp only [List.nil_append, List.cons.injEq] at heq
          rw [heq.2]
        | cons a l' =>
          simp only [List.cons_append, List.cons.injEq] at heq
          exact absurd (heq.1 ▸ List.mem_cons_self a l') hnot
    · have hcb : (c == '@') = false := by simpa using hc
      cases hsp : forms.splitAtFirstAt cs with
      | none =>
        simp only [forms.splitAtFirstAt, hcb, Bool.false_eq_true, if_false, hsp]
        constructor
        · intro h; cases h
        · rintro ⟨heq, hnot⟩
          cases l with
          | nil =>
            simp only [List.nil_append, List.cons.injEq] at heq
            exact absurd heq.1 hc
          | cons a l' =>
            simp only [List.cons_append, List.cons.injEq] at heq
            have hnot' : '@' ∉ l' := fun hm => hnot (List.mem_cons_of_mem a hm)
            have := (ih l' r).mpr ⟨heq.2, hnot'⟩
            rw [hsp] at this
            cases this
      | some p =>
        obtain ⟨l'', r''⟩ := p
        have hcs := (ih l'' r'').mp hsp
        simp only [forms.splitAtFirstAt, hcb, Bool.false_eq_true, if_false, hsp]
        constructor
        · intro h
          rw [Option.some.injEq, Prod.mk.injEq] at h
          obtain ⟨rfl, rfl⟩ := h
          refine ⟨by rw [hcs.1]; rfl, ?_⟩
          intro hm
          rcases List.mem_cons.mp hm with h1 | h2
          · exact hc h1.symm
          · exact hcs.2 h2
        · rintro ⟨heq, hnot⟩
          cases l with
          | nil =>
            simp only [List.nil_append, List.cons.injEq] at heq
            exact absurd heq.1 hc
          | cons a l' =>
            simp only [List.cons_append, List.cons.injEq] at heq
            have hnot' : '@' ∉ l' := fun hm => hnot (List.mem_cons_of_mem a hm)
            have h2 := (ih l' r).mpr ⟨heq.2, hnot'⟩
            rw [hsp, Option.some.injEq, Prod.mk.injEq] at h2
            obtain ⟨hl, hr⟩ := h2
            subst hl
            subst hr
            rw [heq.1]

/-- `splitAtFirstAt` fails exactly on subjects with no `'@'`. -/
theorem splitAtFirstAt_eq_none_iff (cs : List Char) :
    forms.splitAtFirstAt cs = none ↔ '@' ∉ cs := by
  induction cs with
  | nil => simp [forms.splitAtFirstAt]
  | cons c cs ih =>
    by_cases hc : c = '@'
    · subst hc
      simp [forms.splitAtFirstAt]
    · have hcb : (c == '@') = false := by simpa using hc
      cases hsp : forms.splitAtFirstAt cs with
      | none =>
        have := ih.mp hsp
        simp_all [forms.splitAtFirstAt, hcb]
        exact fun h => hc h.symm
      | some p =>
        have : ¬ ('@' ∉ cs) := fun hn => by
          have := ih.mpr hn
          rw [hsp] at this
          cases this
        simp_all [forms.splitAtFirstAt, hcb]

/-- A character is in the middle of a list — after dropping the first entry
and the last — exactly when the list decomposes around it with at least one
entry on each side. -/
theorem mem_drop_one_dropLast_iff (xs : List Char) (c : Char) :
    c ∈ (xs.drop 1).dropLast ↔ ∃ a b, xs = a ++ c :: b ∧ a ≠ [] ∧ b ≠ [] := by
  cases xs with
  | nil => simp
  | cons x ys =>
    have hdrop : (x :: ys).drop 1 = ys := rfl
    rw [hdrop]
    constructor
    · intro h
      rcases ys.eq_nil_or_concat with rfl | ⟨l', z, rfl⟩
      · cases h
      · rw [List.concat_eq_append, List.dropLast_concat] at h
        obtain ⟨a, b, hab⟩ := List.append_of_mem h
        refine ⟨x :: a, b ++ [z], ?_, by simp, by simp⟩
        rw [List.concat_eq_append, hab]
        simp
    · rintro ⟨a, b, heq, ha, hb⟩
      obtain ⟨x', a', rfl⟩ := List.exists_cons_of_ne_nil ha
      rcases b.eq_nil_or_concat with rfl | ⟨b', z, rfl⟩
      · exact absurd rfl hb
      · simp only [List.cons_append, List.cons.injEq] at heq
        obtain ⟨rfl, hys⟩ := heq
        rw [hys]
        have : a' ++ c :: (b'.concat z) = (a' ++ c :: b') ++ [z] := by
          simp [List.concat_eq_append]
        rw [this, List.dropLast_concat]
        simp

/-- The `'@'` character is not admitted by the `[^\s@]` class. -/
theorem okChar_at_false : forms.okChar '@' = false := by
  simp [forms.okChar]

/-- A list of `[^\s@]` characters contains no `'@'`. -/
theorem not_mem_of_all_okChar (l : List Char) (h : l.all forms.okChar = true) :
    '@' ∉ l := by
  intro hm
  have := List.all_eq_true.mp h _ hm
  rw [okChar_at_false] at this
  cases this

/-- The executable `isValidEmail` decides exactly the regex predicate
transcribed from the specification. -/
theorem isValidEmail_iff_matches (s : String) :
    forms.isValidEmail s = true ↔ forms.matchesEmailRegex s := by
  unfold forms.isValidEmail forms.matchesEmailRegex
  cases hsp : forms.splitAtFirstAt s.toList with
  | none =>
    simp only
    constructor
    · intro h; cases h
    · rintro ⟨l, d1, d2, heq, -, -, -, -, -, -⟩
      have hno : '@' ∉ s.toList := (splitAtFirstAt_eq_none_iff _).mp hsp
      refine absurd ?_ hno
      rw [heq]
      simp
  | some p =>
    obtain ⟨lp, dom⟩ := p
    obtain ⟨heq, hnotat⟩ := (splitAtFirstAt_eq_some_iff s.toList lp dom).mp hsp
    simp only
    constructor
    · intro h
      simp only [Bool.and_eq_true] at h
      obtain ⟨⟨⟨hne, hlall⟩, hdall⟩, hdot⟩ := h
      have hmem : '.' ∈ (dom.drop 1).dropLast := by
        simpa using hdot
      obtain ⟨d1, d2, hdeq, hd1, hd2⟩ := (mem_drop_one_dropLast_iff dom '.').mp hmem
      have hlne : lp ≠ [] := by
        intro hn
        rw [hn] at hne
        cases hne
      have hdall' := hdeq ▸ hdall
      simp only [List.all_append, List.all_cons, Bool.and_eq_true] at hdall'
      exact ⟨lp, d1, d2, by rw [heq, hdeq], hlne, hd1, hd2, hlall, hdall'.1, hdall'.2.2⟩
    · rintro ⟨l, d1, d2, heq2, hl, hd1, hd2, hlall, hd1all, hd2all⟩
      have hlnot : '@' ∉ l := not_mem_of_all_okChar l hlall
      have hsome : forms.splitAtFirstAt s.toList = some (l, d1 ++ '.' :: d2) :=
        (splitAtFirstAt_eq_some_iff _ _ _).mpr ⟨heq2, hlnot⟩
      rw [hsp, Option.some.injEq, Prod.mk.injEq] at hsome
      obtain ⟨rfl, rfl⟩ := hsome
      have hdotok : forms.okChar '.' = true := by decide
      simp only [Bool.and_eq_true]
      refine ⟨⟨⟨?_, hlall⟩, ?_⟩, ?_⟩
      · cases lp with
        | nil => exact absurd rfl hl
        | cons a l' => rfl
      · simp [List.all_append, hd1all, hd2all, hdotok]
      · have : '.' ∈ (((d1 ++ '.' :: d2).drop 1).dropLast) :=
          (mem_drop_one_dropLast_iff _ '.').mpr ⟨d1, d2, rfl, hd1, hd2⟩
        simpa using this

/-- C8: `isValidEmail` returns true exactly for strings matching
`^[^\s@]+@[^\s@]+\.[^\s@]+$`; in particular `a@b.co` passes, any string with
no `'@'` fails, and any string whose domain part (after the first `'@'`)
has no dot fails. -/
theorem isValidEmail_matches_regex_spec :
    (∀ s, forms.isValidEmail s = true ↔ forms.matchesEmailRegex s) ∧
    forms.isValidEmail "a@b.co" = true ∧
    (∀ s, '@' ∉ s.toList → forms.isValidEmail s = false) ∧
    (∀ s l r, s.toList = l ++ '@' :: r → '@' ∉ l → '.' ∉ r →
      forms.isValidEmail s = false) := by
  refine ⟨isValidEmail_iff_matches, by decide, fun s h => ?_, fun s l r heq hl hr => ?_⟩
  · rw [forms.isValidEmail, (splitAtFirstAt_eq_none_iff s.toList).mpr h]
  · have hsp : forms.splitAtFirstAt s.toList = some (l, r) :=
      (splitAtFirstAt_eq_some_iff _ _ _).mpr ⟨heq, hl⟩
    have hnd : '.' ∉ (r.drop 1).dropLast := fun hm =>
      hr (List.drop_subset 1 r (List.dropLast_subset _ hm))
    have hc : ((r.drop 1).dropLast).contains '.' = false := by
      simpa using hnd
    rw [forms.isValidEmail, hsp]
    simp [hc]
    intro h1 h2 h3
    simpa [List.drop_one] using hnd

/-- C8 witness: the fourth conjunct applied at the concrete subject
`a@bco`, whose domain part has no dot. -/
theorem isValidEmail_matches_regex_spec_witness :
    ("a@bco".toList = ['a'] ++ '@' :: ['b', 'c', 'o'] ∧ '@' ∉ (['a'] : List Char) ∧
      '.' ∉ (['b', 'c', 'o'] : List Char)) ∧
    forms.isValidEmail "a@bco" = false :=
  ⟨⟨by decide, by decide, by decide⟩,
   isValidEmail_matches_regex_spec.2.2.2 "a@bco" ['a'] ['b', 'c', 'o']
     (by decide) (by decide) (by decide)⟩

/-- The final animated set produced by one scan is exactly the ids written
this scan (in reverse discovery order) in front of the starting set. -/
theorem animateLoop_fst_eq (sp : ℚ) (els : List animations.AnimElement)
    (animated : List Nat) :
    (animations.animateLoop sp els animated).1 =
      (animations.writeIds (animations.animateLoop sp els animated).2).reverse ++ animated := by
  induction els generalizing animated with
  | nil => simp [animations.animateLoop, animations.writeIds]
  | cons el els ih =>
    by_cases hm : el.id ∈ animated
    · simp only [animations.animateLoop, if_pos hm]
      exact ih animated
    · by_cases ht : el.top < sp
      · simp only [animations.animateLoop, if_neg hm, if_pos ht]
        rw [ih (el.id :: animated)]
        simp [animations.writeIds]
      · simp only [animations.animateLoop, if_neg hm, if_neg ht]
        exact ih animated

/-- One scan never removes an element from the animated set. -/
theorem animateLoop_mono (sp : ℚ) (els : List animations.AnimElement)
    (animated : List Nat) :
    animated ⊆ (animations.animateLoop sp els animated).1 := by
  rw [animateLoop_fst_eq]
  exact List.subset_append_right _ _

/-- The ids written by one scan were not in the starting set, and no id is
written twice within the scan. -/
theorem animateLoop_fresh_nodup (sp : ℚ) (els : List animations.AnimElement)
    (animated : List Nat) :
    (∀ e ∈ animations.writeIds (animations.animateLoop sp els animated).2,
      e ∉ animated) ∧
    (animations.writeIds (animations.animateLoop sp els animated).2).Nodup := by
  induction els generalizing animated with
  | nil => simp [animations.animateLoop, animations.writeIds]
  | cons el els ih =>
    by_cases hm : el.id ∈ animated
    · simpa only [animations.animateLoop, if_pos hm] using ih animated
    · by_cases ht : el.top < sp
      · have ih' := ih (el.id :: animated)
        simp only [animations.animateLoop, if_neg hm, if_pos ht,
          animations.writeIds, List.map_cons]
        simp only [animations.writeIds] at ih'
        constructor
        · intro e he
          rcases List.mem_cons.mp he with rfl | h2
          · exact hm
          · intro hin
            exact (ih'.1 e h2) (List.mem_cons_of_mem _ hin)
        · refine List.nodup_cons.mpr ⟨?_, ih'.2⟩
          intro hin
          exact (ih'.1 _ hin) (List.mem_cons_self _ _)
      · simpa only [animations.animateLoop, if_neg hm, if_neg ht] using ih animated

/-- An element that appears in the scanned list with its top above the
screen position ends up in the animated set after the scan. -/
theorem animateLoop_mem_of_qualifies (sp : ℚ) (els : List animations.AnimElement)
    (animated : List Nat) (e : Nat)
    (h : ∃ el ∈ els, el.id = e ∧ el.top < sp) :
    e ∈ (animations.animateLoop sp els animated).1 := by
  induction els generalizing animated with
  | nil => simp at h
  | cons el els ih =>
    rcases h with ⟨w, hw, hid, htop⟩
    rcases List.mem_cons.mp hw with rfl | htail
    · subst hid
      by_cases hm : w.id ∈ animated
      · simp only [animations.animateLoop, if_pos hm]
        exact animateLoop_mono sp els animated hm
      · simp only [animations.animateLoop, if_neg hm, if_pos htop]
        exact animateLoop_mono sp els (w.id :: animated) (List.mem_cons_self _ _)
    · by_cases hm : el.id ∈ animated
      · simp only [animations.animateLoop, if_pos hm]
        exact ih animated ⟨w, htail, hid, htop⟩
      · by_cases ht : el.top < sp
        · simp only [animations.animateLoop, if_neg hm, if_pos ht]
          exact ih (el.id :: animated) ⟨w, htail, hid, htop⟩
        · simp only [animations.animateLoop, if_neg hm, if_neg ht]
          exact ih animated ⟨w, htail, hid, htop⟩

/-- Every style write of one scan sets opacity `'1'` and transform
`'translateY(0)'`. -/
theorem animateLoop_writes_constant (sp : ℚ) (els : List animations.AnimElement)
    (animated : List Nat) :
    ∀ w ∈ (animations.animateLoop sp els animated).2,
      w.opacity = "1" ∧ w.transform = "translateY(0)" := by
  induction els generalizing animated with
  | nil => simp [animations.animateLoop]
  | cons el els ih =>
    by_cases hm : el.id ∈ animated
    · simpa only [animations.animateLoop, if_pos hm] using ih animated
    · by_cases ht : el.top < sp
      · simp only [animations.animateLoop, if_neg hm, if_pos ht]
        intro w hw
        rcases List.mem_cons.mp hw with rfl | h2
        · exact ⟨rfl, rfl⟩
        · exact ih (el.id :: animated) w h2
      · simpa only [animations.animateLoop, if_neg hm, if_neg ht] using ih animated

/-- The animated set after a run of ticks is exactly the ids written during
the run (in reverse discovery order) in front of the starting set. -/
theorem runTicks_fst_eq (ticks : List animations.ScrollTick) (animated : List Nat) :
    (animations.runTicks ticks animated).1 =
      (animations.writeIds (animations.runTicks ticks animated).2).reverse ++ animated := by
  induction ticks generalizing animated with
  | nil => simp [animations.runTicks, animations.writeIds]
  | cons t ts ih =>
    simp only [animations.runTicks]
    rw [ih, animations.animateOnScrollBody, animateLoop_fst_eq]
    simp [animations.writeIds, List.append_assoc]

/-- A run of ticks never removes an element from the animated set. -/
theorem runTicks_mono (ticks : List animations.ScrollTick) (animated : List Nat) :
    animated ⊆ (animations.runTicks ticks animated).1 := by
  rw [runTicks_fst_eq]
  exact List.subset_append_right _ _

/-- Across a run of ticks, no written id was in the starting set and no id
is written twice. -/
theorem runTicks_fresh_nodup (ticks : List animations.ScrollTick) (animated : List Nat) :
    (∀ e ∈ animations.writeIds (animations.runTicks ticks animated).2, e ∉ animated) ∧
    (animations.writeIds (animations.runTicks ticks animated).2).Nodup := by
  induction ticks generalizing animated with
  | nil => simp [animations.runTicks, animations.writeIds]
  | cons t ts ih =>
    simp only [animations.runTicks, animations.writeIds, List.map_append]
    have hloop := animateLoop_fresh_nodup (t.innerHeight * 0.8) t.elements animated
    simp only [animations.writeIds] at hloop
    have hih := ih ((animations.animateOnScrollBody t.innerHeight t.elements animated).1)
    simp only [animations.writeIds] at hih
    constructor
    · intro e he
      rcases List.mem_append.mp he with h1 | h2
      · exact hloop.1 e h1
      · intro hin
        exact hih.1 e h2
          (animateLoop_mono (t.innerHeight * 0.8) t.elements animated hin)
    · rw [List.nodup_append]
      refine ⟨hloop.2, hih.2, ?_⟩
      intro e h1 h2
      have hmem : e ∈ (animations.animateOnScrollBody t.innerHeight t.elements animated).1 := by
        rw [animations.animateOnScrollBody, animateLoop_fst_eq]
        exact List.mem_append_left _ (List.mem_reverse.mpr h1)
      exact hih.1 e h2 hmem

/-- An element that qualifies during some tick of the run is in the animated
set at the end of the run. -/
theorem runTicks_mem_of_qualifies (ticks : List animations.ScrollTick)
    (animated : List Nat) (e : Nat)
    (h : ∃ t ∈ ticks, ∃ el ∈ t.elements, el.id = e ∧ el.top < t.innerHeight * 0.8) :
    e ∈ (animations.runTicks ticks animated).1 := by
  induction ticks generalizing animated with
  | nil => simp at h
  | cons t ts ih =>
    rcases h with ⟨tk, htk, hex⟩
    rcases List.mem_cons.mp htk with rfl | htail
    · simp only [animations.runTicks]
      refine runTicks_mono ts _ ?_
      rw [animations.animateOnScrollBody]
      exact animateLoop_mem_of_qualifies _ _ _ _ hex
    · simp only [animations.runTicks]
      exact ih _ ⟨tk, htail, hex⟩

/-- Every style write across a run sets opacity `'1'` and transform
`'translateY(0)'`. -/
theorem runTicks_writes_constant (ticks : List animations.ScrollTick)
    (animated : List Nat) :
    ∀ w ∈ (animations.runTicks ticks animated).2,
      w.opacity = "1" ∧ w.transform = "translateY(0)" := by
  induction ticks generalizing animated with
  | nil => simp [animations.runTicks]
  | cons t ts ih =>
    simp only [animations.runTicks]
    intro w hw
    rcases List.mem_append.mp hw with h1 | h2
    · exact animateLoop_writes_constant (t.innerHeight * 0.8) t.elements animated w h1
    · exact ih _ w h2

/-- C6: the animated set only grows — neither a single scan nor a run of
scroll ticks ever removes an element — every style write of a run sets
opacity to 1, and, starting from the empty page-load set, an element whose
top is above 80 percent of the viewport height at some tick receives that
opacity write exactly once across the whole run. -/
theorem animatedElements_monotone_animate_once :
    (∀ sp els animated, animated ⊆ (animations.animateLoop sp els animated).1) ∧
    (∀ ticks animated, animated ⊆ (animations.runTicks ticks animated).1) ∧
    (∀ ticks, (animations.writeIds (animations.runTicks ticks []).2).Nodup) ∧
    (∀ ticks w, w ∈ (animations.runTicks ticks []).2 →
      w.opacity = "1" ∧ w.transform = "translateY(0)") ∧
    (∀ ticks e,
      (∃ t ∈ ticks, ∃ el ∈ t.elements, el.id = e ∧ el.top < t.innerHeight * 0.8) →
      (animations.writeIds (animations.runTicks ticks []).2).count e = 1) := by
  refine ⟨animateLoop_mono, runTicks_mono, fun ticks => (runTicks_fresh_nodup ticks []).2,
    fun ticks w hw => runTicks_writes_constant ticks [] w hw, fun ticks e hq => ?_⟩
  have hmem : e ∈ (animations.runTicks ticks []).1 := runTicks_mem_of_qualifies ticks [] e hq
  rw [runTicks_fst_eq] at hmem
  have hmem2 : e ∈ animations.writeIds (animations.runTicks ticks []).2 := by
    rcases List.mem_append.mp hmem with h1 | h2
    · exact List.mem_reverse.mp h1
    · cases h2
  exact List.count_eq_one_of_mem (runTicks_fresh_nodup ticks []).2 hmem2

/-- C6 witness: the exactly-once conjunct applied to a run of two identical
ticks containing one qualifying element (id 7, top 0, viewport height 10):
across both ticks the element is written exactly once. -/
theorem animatedElements_monotone_animate_once_witness :
    (∃ t ∈ [animations.ScrollTick.mk 10 [{ id := 7, top := 0 }],
            animations.ScrollTick.mk 10 [{ id := 7, top := 0 }]],
      ∃ el ∈ t.elements, el.id = 7 ∧ el.top < t.innerHeight * 0.8) ∧
    (animations.writeIds (animations.runTicks
      [animations.ScrollTick.mk 10 [{ id := 7, top := 0 }],
       animations.ScrollTick.mk 10 [{ id := 7, top := 0 }]] []).2).count 7 = 1 :=
  ⟨⟨animations.ScrollTick.mk 10 [{ id := 7, top := 0 }], by simp,
    { id := 7, top := 0 }, by simp, rfl, by norm_num⟩,
   animatedElements_monotone_animate_once.2.2.2.2
     [animations.ScrollTick.mk 10 [{ id := 7, top := 0 }],
      animations.ScrollTick.mk 10 [{ id := 7, top := 0 }]] 7
     ⟨animations.ScrollTick.mk 10 [{ id := 7, top := 0 }], by simp,
      { id := 7, top := 0 }, by simp, rfl, by norm_num⟩⟩
